import Mathlib

/-!
Shallow embedding of `controllers/git_tekton_resources_renovater.go`
(`GitTektonResourcesRenovater`): the reconciliation algorithm that matches
GitHub App installations against tracked Components, partitions the matched
installations into batches, and materializes each batch as a renovate job
(secret + configmap + job spec).

External collaborators (the Kubernetes client, `github.GetInstallations`,
`gitops.IsPaCApplicationConfigured`, `strconv.ParseInt` of the app id, the
environment) are modelled as oracle inputs in `ReconcileEnv`; everything the
repository's own code computes is translated directly.
-/

/- ### Constants (from the `const` block of the source) -/

/-- Constant `DefaultRenovateImageUrl`. -/
def DefaultRenovateImageUrl : String := "quay.io/redhat-appstudio/renovate:34.154-slim"

/-- Constant `DefaultRenovateMatchPattern`. -/
def DefaultRenovateMatchPattern : String := "^quay.io/redhat-appstudio-tekton-catalog/"

/-- Constant `TimeToLiveOfJob = 24 * time.Hour`, in seconds (the value of
`int32(TimeToLiveOfJob.Seconds())` used in the job spec). -/
def TimeToLiveOfJobSeconds : Nat := 24 * 60 * 60

/-- Constant `NextReconcile = 10 * time.Hour`, in seconds. -/
def NextReconcileSeconds : Nat := 10 * 60 * 60

/-- Constant `InstallationsPerJob = 20`. -/
def InstallationsPerJob : Nat := 20

/- ### String helpers (Go standard library semantics) -/

/-- Go `strings.TrimSuffix(s, suf)`: removes one trailing occurrence of `suf`
from `s` when present, otherwise returns `s` unchanged. -/
def trimSuffix (s suf : String) : String :=
  if suf.data.isSuffixOf s.data then ⟨s.data.take (s.data.length - suf.data.length)⟩ else s

/-- The component URL normalization of the source:
`strings.TrimSuffix(strings.TrimSuffix(url, ".git"), "/")` — the `".git"`
suffix is trimmed first, then a trailing `"/"`. -/
def normalizeRepoUrl (url : String) : String :=
  trimSuffix (trimSuffix url ".git") "/"

/-- Go map update `m[k] = v` on a string-keyed map viewed as a lookup
function. -/
def goMapSet (m : String → Option String) (k v : String) : String → Option String :=
  fun x => if x = k then some v else m x

/- ### Data model -/

/-- A repository of a GitHub App installation, as returned by the external
directory (`GetFullName()` / `GetHTMLURL()`). -/
structure Repository where
  fullName : String
  htmlURL : String
  deriving DecidableEq, Repr

/-- A GitHub App installation as returned by `github.GetInstallations`. -/
structure Installation where
  id : Int
  token : String
  repositories : List Repository
  deriving DecidableEq, Repr

/-- The `component.Spec.Source.GitSource` fields (URL and Revision), flattening the
nesting of the Component type. -/
structure GitSource where
  url : String
  revision : String
  deriving DecidableEq, Repr

/-- A Component record as used by the renovater: only the optional git
source matters. -/
structure Component where
  gitSource : Option GitSource
  deriving DecidableEq, Repr

/-- The `renovateRepository` struct: JSON fields `repository` and
`baseBranches,omitempty`, in that declaration order. -/
structure RenovateRepository where
  repository : String
  baseBranches : List String
  deriving DecidableEq, Repr

/-- The `installationStruct` record: one matched installation. -/
structure InstallationStruct where
  id : Int
  token : String
  repositories : List RenovateRepository
  deriving DecidableEq, Repr

/- ### Tracked-repository map (Reconcile, lines 145–151) -/

/-- The `componentUrlToBranchMap` construction: for every component with a
git source, store `map[TrimSuffix(TrimSuffix(url, ".git"), "/")] = revision`;
a later component overwrites an earlier one with the same key. -/
def buildUrlMap (components : List Component) : String → Option String :=
  components.foldl
    (fun m c =>
      match c.gitSource with
      | none => m
      | some gs => goMapSet m (normalizeRepoUrl gs.url) gs.revision)
    (fun _ => none)

/- ### Matcher (Reconcile, lines 154–182) -/

/-- Inner loop of the matcher: for each repository of an installation, look
its HTML URL up in the map (exact string equality); skip it when absent;
otherwise produce a `renovateRepository` whose `baseBranches` is `[branch]`
when the tracked revision is non-empty and `[]` otherwise. -/
def matchRepositories (m : String → Option String) (repos : List Repository) :
    List RenovateRepository :=
  repos.filterMap fun repo =>
    match m repo.htmlURL with
    | none => none
    | some branch =>
        some { repository := repo.fullName
               baseBranches := if branch = "" then [] else [branch] }

/-- Outer loop of the matcher: an installation whose matched repository list
is empty is skipped (`if len(repositories) == 0 { continue }`), otherwise it
becomes an `installationStruct`. -/
def matchInstallations (m : String → Option String) (insts : List Installation) :
    List InstallationStruct :=
  insts.filterMap fun gi =>
    let repositories := matchRepositories m gi.repositories
    if repositories.isEmpty then none
    else some { id := gi.id, token := gi.token, repositories := repositories }

/- ### Batch-limit parsing (Reconcile, lines 185–194) -/

/-- The regexp check `^\d{1,2}$`: the string is one or two decimal digits. -/
def matchesOneOrTwoDigits (s : String) : Bool :=
  (s.length == 1 || s.length == 2) && s.data.all (fun c => c.isDigit)

/-- Go `strconv.Atoi` on an all-digit string (the only case reached in the
source, since the regexp has already matched). -/
def digitsToNat (s : String) : Nat :=
  s.data.foldl (fun n c => n * 10 + (c.toNat - '0'.toNat)) 0

/-- Parsing of `RENOVATE_INSTALLATIONS_PER_JOB`: accepted only when it is a
1-or-2-digit numeric string; the value 0 and any non-matching string fall
back to `InstallationsPerJob` (20). -/
def parsePerJobLimit (s : String) : Nat :=
  if matchesOneOrTwoDigits s then
    let n := digitsToNat s
    if n == 0 then InstallationsPerJob else n
  else InstallationsPerJob

/- ### Batcher (Reconcile, lines 195–205) -/

/-- Fuel-based encoding of the slicing loop
`for i := 0; i < len(l); i += limit { batch := l[i:min(i+limit, len(l))] }`;
the fuel is instantiated with `l.length`, which suffices for any positive
`limit`. -/
def batchGo (limit : Nat) : Nat → List α → List (List α)
  | _, [] => []
  | 0, _ :: _ => []
  | fuel + 1, x :: xs => ((x :: xs).take limit) :: batchGo limit fuel ((x :: xs).drop limit)

/-- The batch partition of the matched-installation list. -/
def batchInstallations (limit : Nat) (l : List α) : List (List α) :=
  batchGo limit l.length l

/- ### JSON serialization (Go `encoding/json` semantics for the types used) -/

/-- One hex digit, lowercase, as used by `encoding/json` `\u00XX` escapes. -/
def hexDigit (n : Nat) : String :=
  if n = 0 then "0" else if n = 1 then "1" else if n = 2 then "2"
  else if n = 3 then "3" else if n = 4 then "4" else if n = 5 then "5"
  else if n = 6 then "6" else if n = 7 then "7" else if n = 8 then "8"
  else if n = 9 then "9" else if n = 10 then "a" else if n = 11 then "b"
  else if n = 12 then "c" else if n = 13 then "d" else if n = 14 then "e"
  else "f"

/-- Per-character escaping of Go `json.Marshal` with its default
HTML-escaping behavior. -/
def jsonEscapeChar (c : Char) : String :=
  if c = '"' then "\\\""
  else if c = '\\' then "\\\\"
  else if c = '<' then "\\u003c"
  else if c = '>' then "\\u003e"
  else if c = '&' then "\\u0026"
  else if c = '\n' then "\\n"
  else if c = '\r' then "\\r"
  else if c = '\t' then "\\t"
  else if c.toNat < 0x20 then "\\u00" ++ hexDigit (c.toNat / 16) ++ hexDigit (c.toNat % 16)
  else if c = ' ' then "\\u2028"
  else if c = ' ' then "\\u2029"
  else String.singleton c

/-- A JSON string literal for `s`. -/
def jsonQuote (s : String) : String :=
  "\"" ++ String.join (s.data.map jsonEscapeChar) ++ "\""

/-- Go `json.Marshal` of one `renovateRepository` value: fields in declaration
order; `baseBranches` carries `omitempty`, so an empty slice omits the field
entirely. -/
def renovateRepositoryJson (r : RenovateRepository) : String :=
  "\x7b\"repository\":" ++ jsonQuote r.repository ++
    (if r.baseBranches.isEmpty then ""
     else ",\"baseBranches\":[" ++ String.intercalate "," (r.baseBranches.map jsonQuote) ++ "]") ++
    "\x7d"

/-- Go `json.Marshal` of the `[]renovateRepository` slice. -/
def renovateRepositoriesJson (rs : List RenovateRepository) : String :=
  "[" ++ String.intercalate "," (rs.map renovateRepositoryJson) ++ "]"

/- ### Config generator (`generateConfigJS`, lines 210–246) -/

/-- Template text before the first `%s` (the `username` slug). -/
def configPart0 : String :=
  "\n\tmodule.exports = \x7b\n\t\tplatform: \"github\",\n\t\tusername: \""

/-- Template text between the first and second `%s`. -/
def configPart1 : String := "[bot]\",\n\t\tgitAuthor:\""

/-- Template text between the second and third `%s`. -/
def configPart2 : String := " <123456+"

/-- Template text between the third `%s` and the serialized repositories. -/
def configPart3 : String :=
  "[bot]@users.noreply.github.com>\",\n\t\tonboarding: false,\n\t\trequireConfig: \"ignored\",\n\t\tenabledManagers: [\"tekton\"],\n\t\trepositories: "

/-- Template text between the serialized repositories and the fourth `%s`
(the match pattern of the re-enabling package rule). -/
def configPart4 : String :=
  ",\n\t\ttekton: \x7b\n\t\t\tfileMatch: [\"\\\\.yaml$\", \"\\\\.yml$\"],\n\t\t\tincludePaths: [\".tekton/**\"],\n\t\t\tpackageRules: [\n\t\t\t  \x7b\n\t\t\t\tmatchPackagePatterns: [\"*\"],\n\t\t\t\tenabled: false\n\t\t\t  \x7d,\n\t\t\t  \x7b\n\t\t\t\tmatchPackagePatterns: [\""

/-- Template text between the fourth and fifth `%s`. -/
def configPart5 : String := "\"],\n\t\t\t\tmatchDepPatterns: [\""

/-- Template text after the fifth `%s`, to the end of the template. -/
def configPart6 : String :=
  "\"],\n\t\t\t\tgroupName: \"tekton references\",\n\t\t\t\tenabled: true\n\t\t\t  \x7d\n\t\t\t]\n\t\t\x7d,\n\t\tincludeForks: true,\n\t\tdependencyDashboard: false\n\t\x7d\n\t"

/-- The effective renovate match pattern: the `RENOVATE_PATTERN` environment
value, or the documented default when that is empty. -/
def effectivePattern (patternEnv : String) : String :=
  if patternEnv = "" then DefaultRenovateMatchPattern else patternEnv

/-- The function `generateConfigJS(slug, repositories)`: `fmt.Sprintf` of the template
with the slug three times, the marshalled repositories, and the match
pattern twice. The `RENOVATE_PATTERN` environment read inside the function
is passed explicitly as `patternEnv`. -/
def generateConfigJS (slug : String) (repositories : List RenovateRepository)
    (patternEnv : String) : String :=
  configPart0 ++ slug ++ configPart1 ++ slug ++ configPart2 ++ slug ++ configPart3 ++
    renovateRepositoriesJson repositories ++ configPart4 ++ effectivePattern patternEnv ++
    configPart5 ++ effectivePattern patternEnv ++ configPart6

/- ### Artifact builder (`CreateRenovaterJob`, lines 248–344) -/

/-- An `EnvFromSource` with a name-prefix string and a secret reference. -/
structure EnvFromSourceSpec where
  pre : String
  secretName : String
  deriving DecidableEq, Repr

/-- A volume mount of the container. `readOnly` is Go's zero value `false`
unless the source sets it. -/
structure VolumeMountSpec where
  name : String
  mountPath : String
  readOnly : Bool
  deriving DecidableEq, Repr

/-- A pod volume backed by a config map. -/
structure VolumeSpec where
  name : String
  configMapName : String
  deriving DecidableEq, Repr

/-- The container `SecurityContext` fields set by the source. -/
structure SecurityContextSpec where
  capabilitiesDrop : List String
  runAsNonRoot : Bool
  allowPrivilegeEscalation : Bool
  seccompProfileType : String
  deriving DecidableEq, Repr

/-- The single container of the job's pod template. -/
structure ContainerSpec where
  name : String
  image : String
  envFrom : List EnvFromSourceSpec
  command : List String
  volumeMounts : List VolumeMountSpec
  securityContext : SecurityContextSpec
  deriving DecidableEq, Repr

/-- The job object built by `CreateRenovaterJob`. -/
structure JobSpec where
  name : String
  backoffLimit : Int
  ttlSecondsAfterFinished : Int
  volumes : List VolumeSpec
  containers : List ContainerSpec
  restartPolicy : String
  deriving DecidableEq, Repr

/-- The triple of objects created for one batch: the token secret
(`StringData`), the config map (`Data`), and the job. -/
structure RenovaterArtifact where
  secretData : String → Option String
  configMapData : String → Option String
  job : JobSpec

/-- The per-installation renovate command:
`RENOVATE_TOKEN=$TOKEN_{id} RENOVATE_CONFIG_FILE=/configs/{id}.js renovate`. -/
def renovateCmdFor (id : Int) : String :=
  "RENOVATE_TOKEN=$TOKEN_" ++ toString id ++ " RENOVATE_CONFIG_FILE=/configs/" ++
    toString id ++ ".js renovate"

/-- The function `CreateRenovaterJob(installations, slug)` up to its cluster writes: the
objects it builds. The generated job name (timestamp + random suffix) and
the two environment reads are passed explicitly; `none` is the early return
for an empty installation list. -/
def createRenovaterJob (name : String) (installations : List InstallationStruct)
    (slug imageEnv patternEnv : String) : Option RenovaterArtifact :=
  if installations.isEmpty then none
  else
    let secretTokens := installations.foldl
      (fun m i => goMapSet m (toString i.id) i.token) (fun _ => none)
    let configmaps := installations.foldl
      (fun m i => goMapSet m (toString i.id ++ ".js")
        (generateConfigJS slug i.repositories patternEnv)) (fun _ => none)
    let renovateCmds := installations.map (fun i => renovateCmdFor i.id)
    if renovateCmds.isEmpty then none
    else
      let image := if imageEnv = "" then DefaultRenovateImageUrl else imageEnv
      some
        { secretData := secretTokens
          configMapData := configmaps
          job :=
            { name := name
              backoffLimit := 1
              ttlSecondsAfterFinished := (TimeToLiveOfJobSeconds : Int)
              volumes := [{ name := name, configMapName := name }]
              containers :=
                [{ name := "renovate"
                   image := image
                   envFrom := [{ pre := "TOKEN_", secretName := name }]
                   command := ["bash", "-c", String.intercalate "; " renovateCmds]
                   volumeMounts := [{ name := name, mountPath := "/configs", readOnly := false }]
                   securityContext :=
                     { capabilitiesDrop := ["ALL"]
                       runAsNonRoot := true
                       allowPrivilegeEscalation := false
                       seccompProfileType := "RuntimeDefault" } }]
              restartPolicy := "Never" } }

/- ### Reconciliation orchestrator (`Reconcile`, lines 108–208) -/

/-- A log line emitted through `r.Log`. -/
inductive LogEntry where
  | errorLog (msg : String)
  | infoLog (msg : String)
  deriving DecidableEq, Repr

/-- Result of the `r.Client.Get` of the Pipelines-as-Code secret: found with
data, absent (`errors.IsNotFound`), or any other error. -/
inductive SecretGetResult where
  | found (data : List (String × String))
  | notFound
  | errOther (msg : String)
  deriving DecidableEq, Repr

/-- The secret data the reconciler works with: the fetched data, or the
zero-value (empty) secret when the secret was absent or unreadable. -/
def secretDataOf : SecretGetResult → List (String × String)
  | .found d => d
  | _ => []

/-- Oracle inputs of one reconciliation: results of every call the
reconciler makes to its external collaborators, plus the environment
variables it reads. -/
structure ReconcileEnv where
  /-- Result of `r.Client.Get` of the global Pipelines-as-Code secret. -/
  secretGet : SecretGetResult
  /-- The check `gitops.IsPaCApplicationConfigured("github", pacSecret.Data)` (external
  to this repository). -/
  isAppConfigured : List (String × String) → Bool
  /-- Result of `strconv.ParseInt` of the github-application-id entry of the secret
  (abstracted: only success/failure matters downstream). -/
  parseAppId : List (String × String) → Except String Int
  /-- Result of `github.GetInstallations(githubAppId, privateKey)`. -/
  getInstallations : Except String (List Installation × String)
  /-- Result of `r.Client.List` of all Components. -/
  listComponents : Except String (List Component)
  /-- Value of `os.Getenv(RENOVATE_INSTALLATIONS_PER_JOB)`. -/
  perJobEnv : String
  /-- Value of `os.Getenv(RENOVATE_IMAGE)`. -/
  imageEnv : String
  /-- Value of `os.Getenv(RENOVATE_PATTERN)`. -/
  patternEnv : String
  /-- The fresh job name generated for a batch (timestamp + random suffix). -/
  jobName : List InstallationStruct → String
  /-- Result of the cluster writes of `CreateRenovaterJob` for a batch:
  `none` on success, `some msg` when any create/update call failed. -/
  createResult : List InstallationStruct → Option String

/-- Observable outcome of one reconciliation. -/
structure ReconcileOutput where
  /-- The `ctrl.Result.RequeueAfter` value, in seconds (`none` for the zero result). -/
  requeueAfterSeconds : Option Nat
  /-- The error returned to the controller framework. -/
  error : Option String
  /-- Whether `github.GetInstallations` was reached. -/
  directoryCalled : Bool
  /-- The batches passed one by one to `CreateRenovaterJob`. -/
  batchesAttempted : List (List InstallationStruct)
  /-- The artifacts built for those batches. -/
  artifacts : List RenovaterArtifact
  /-- The log lines emitted. -/
  logs : List LogEntry

/-- The body of `Reconcile` from the point where the secret data is available. -/
def reconcileWithData (env : ReconcileEnv) (data : List (String × String)) : ReconcileOutput :=
  if env.isAppConfigured data = false then
    { requeueAfterSeconds := none, error := none, directoryCalled := false,
      batchesAttempted := [], artifacts := [],
      logs := [.infoLog "GitHub App is not set"] }
  else
    match env.parseAppId data with
    | .error _ =>
        { requeueAfterSeconds := none, error := none, directoryCalled := false,
          batchesAttempted := [], artifacts := [],
          logs := [.errorLog "failed to convert githubAppId to int"] }
    | .ok _ =>
        match env.getInstallations with
        | .error e =>
            { requeueAfterSeconds := none, error := some e, directoryCalled := true,
              batchesAttempted := [], artifacts := [], logs := [] }
        | .ok (githubAppInstallations, slug) =>
            match env.listComponents with
            | .error e =>
                { requeueAfterSeconds := none, error := some e, directoryCalled := true,
                  batchesAttempted := [], artifacts := [],
                  logs := [.errorLog "failed to list Components"] }
            | .ok componentItems =>
                let componentUrlToBranchMap := buildUrlMap componentItems
                let installationsToUpdate :=
                  matchInstallations componentUrlToBranchMap githubAppInstallations
                let installationPerJobInt := parsePerJobLimit env.perJobEnv
                let batches := batchInstallations installationPerJobInt installationsToUpdate
                { requeueAfterSeconds := some NextReconcileSeconds
                  error := none
                  directoryCalled := true
                  batchesAttempted := batches
                  artifacts := batches.filterMap fun b =>
                    createRenovaterJob (env.jobName b) b slug env.imageEnv env.patternEnv
                  logs := batches.filterMap fun b =>
                    (env.createResult b).map fun _ => LogEntry.errorLog "failed to create a job" }

/-- The whole `Reconcile`: a non-IsNotFound secret read error is logged and
swallowed (`return ctrl.Result{}, nil`); otherwise the body runs on the
fetched (possibly zero-value) secret data. -/
def reconcile (env : ReconcileEnv) : ReconcileOutput :=
  match env.secretGet with
  | .errOther _ =>
      { requeueAfterSeconds := none, error := none, directoryCalled := false,
        batchesAttempted := [], artifacts := [],
        logs := [.errorLog "failed to get Pipelines as Code secret"] }
  | r => reconcileWithData env (secretDataOf r)

/- ### Helper lemmas -/

lemma batchGo_nil (limit fuel : Nat) : batchGo limit fuel ([] : List α) = [] := by
  cases fuel <;> rfl

lemma batchGo_flatten (limit : Nat) (hl : 0 < limit) :
    ∀ (fuel : Nat) (l : List α), l.length ≤ fuel → (batchGo limit fuel l).flatten = l := by
  intro fuel
  induction fuel with
  | zero =>
    intro l h
    cases l with
    | nil => rfl
    | cons x xs => simp at h
  | succ n ih =>
    intro l h
    cases l with
    | nil => rfl
    | cons x xs =>
      simp only [List.length_cons] at h
      simp only [batchGo, List.flatten_cons]
      rw [ih ((x :: xs).drop limit)
        (by rw [List.length_drop]; simp only [List.length_cons]; omega)]
      exact List.take_append_drop limit (x :: xs)

lemma batchGo_length_le (limit : Nat) :
    ∀ (fuel : Nat) (l : List α), ∀ b ∈ batchGo limit fuel l, b.length ≤ limit := by
  intro fuel
  induction fuel with
  | zero =>
    intro l b hb
    rcases l with _ | ⟨x, xs⟩ <;> simp [batchGo] at hb
  | succ n ih =>
    intro l b hb
    cases l with
    | nil => simp [batchGo] at hb
    | cons x xs =>
      simp only [batchGo, List.mem_cons] at hb
      rcases hb with rfl | hb
      · simp only [List.length_take]
        omega
      · exact ih _ b hb

lemma batchGo_dropLast (limit : Nat) :
    ∀ (fuel : Nat) (l : List α), ∀ b ∈ (batchGo limit fuel l).dropLast, b.length = limit := by
  intro fuel
  induction fuel with
  | zero =>
    intro l b hb
    rcases l with _ | ⟨x, xs⟩ <;> simp [batchGo] at hb
  | succ n ih =>
    intro l b hb
    cases l with
    | nil => simp [batchGo] at hb
    | cons x xs =>
      simp only [batchGo] at hb
      rcases hrest : batchGo limit n ((x :: xs).drop limit) with _ | ⟨r, rs⟩
      · rw [hrest] at hb
        simp at hb
      · rw [hrest, List.dropLast_cons_of_ne_nil (by simp), List.mem_cons] at hb
        rcases hb with rfl | hb
        · have hne : (x :: xs).drop limit ≠ [] := by
            intro hc
            rw [hc, batchGo_nil] at hrest
            exact List.noConfusion hrest
          have hlt : limit < (x :: xs).length := by
            by_contra hc
            push_neg at hc
            exact hne (List.drop_of_length_le hc)
          rw [List.length_take]
          omega
        · exact ih _ b (hrest ▸ hb)

/- ### Claim theorems -/

/-- Claim C2: for every matched-installation list and every positive batch
limit, the batching loop is total and order-preserving: concatenating the
batches in order reproduces the original sequence exactly, every batch
except possibly the last has exactly `limit` entries, and no batch exceeds
`limit`. -/
theorem batch_partition_total_order_preserving (limit : Nat) (hl : 0 < limit)
    (l : List InstallationStruct) :
    (batchInstallations limit l).flatten = l
    ∧ (∀ b ∈ (batchInstallations limit l).dropLast, b.length = limit)
    ∧ (∀ b ∈ batchInstallations limit l, b.length ≤ limit) :=
  ⟨batchGo_flatten limit hl l.length l (Nat.le_refl _),
   batchGo_dropLast limit l.length l,
   batchGo_length_le limit l.length l⟩

/-- A concrete three-installation matched list used by witnesses. -/
def threeInstallations : List InstallationStruct :=
  [{ id := 1, token := "t1", repositories := [{ repository := "a/a", baseBranches := [] }] },
   { id := 2, token := "t2", repositories := [{ repository := "b/b", baseBranches := [] }] },
   { id := 3, token := "t3", repositories := [{ repository := "c/c", baseBranches := ["main"] }] }]

/-- Witness for C2 at `limit = 2` on a concrete three-installation list. -/
theorem batch_partition_total_order_preserving_witness :
    0 < 2
    ∧ ((batchInstallations 2 threeInstallations).flatten = threeInstallations
       ∧ (∀ b ∈ (batchInstallations 2 threeInstallations).dropLast, b.length = 2)
       ∧ (∀ b ∈ batchInstallations 2 threeInstallations, b.length ≤ 2)) :=
  ⟨by decide, batch_partition_total_order_preserving 2 (by decide) _⟩

/-- Claim C9: the installations-per-batch environment value is accepted only
when it is a 1-or-2-digit numeric string: `"0"`, `"abc"` and `"100"` all
fall back to the default limit 20, `"7"` yields 7, and any string failing
the digit check falls back to 20. -/
theorem per_job_limit_validation :
    parsePerJobLimit "0" = 20
    ∧ parsePerJobLimit "abc" = 20
    ∧ parsePerJobLimit "100" = 20
    ∧ parsePerJobLimit "7" = 7
    ∧ ∀ s : String, matchesOneOrTwoDigits s = false → parsePerJobLimit s = 20 := by
  refine ⟨by decide, by decide, by decide, by decide, ?_⟩
  intro s hs
  simp [parsePerJobLimit, hs, InstallationsPerJob]

/-- Witness for C9's fallback clause at `"abc"`. -/
theorem per_job_limit_validation_witness :
    matchesOneOrTwoDigits "abc" = false ∧ parsePerJobLimit "abc" = 20 :=
  ⟨by decide, per_job_limit_validation.2.2.2.2 "abc" (by decide)⟩

lemma matchRepositories_isEmpty (m : String → Option String) (rs : List Repository) :
    (matchRepositories m rs).isEmpty =
      !(rs.any fun r => (m r.htmlURL).isSome) := by
  induction rs with
  | nil => rfl
  | cons r rs ih =>
    simp only [matchRepositories, List.filterMap_cons, List.any_cons] at *
    cases hm : m r.htmlURL with
    | none => simp only [hm] at ih ⊢; exact ih
    | some b => simp [hm]

lemma matchRepositories_names_sublist (m : String → Option String) (rs : List Repository) :
    ((matchRepositories m rs).map fun r => r.repository).Sublist
      (rs.map fun r => r.fullName) := by
  induction rs with
  | nil => simp [matchRepositories]
  | cons r rs ih
  =>
    simp only [matchRepositories, List.filterMap_cons, List.map_cons] at *
    cases hm : m r.htmlURL with
    | none => exact ih.cons r.fullName
    | some b => simpa using ih.cons₂ r.fullName

lemma filterMap_ite_eq_map_filter {α β : Type} (p : α → Bool) (f : α → β) :
    ∀ l : List α, (l.filterMap fun a => if p a then none else some (f a)) =
      (l.filter fun a => !(p a)).map f := by
  intro l
  induction l with
  | nil => rfl
  | cons a l ih =>
    rw [List.filterMap_cons, List.filter_cons]
    cases hp : p a with
    | false => simp [hp, ih]
    | true => simp [hp, ih]

lemma matchInstallations_eq_filter_map (m : String → Option String)
    (insts : List Installation) :
    matchInstallations m insts =
      (insts.filter fun gi => gi.repositories.any fun r => (m r.htmlURL).isSome).map
        (fun gi => { id := gi.id, token := gi.token,
                     repositories := matchRepositories m gi.repositories }) := by
  have h := filterMap_ite_eq_map_filter
    (fun gi : Installation => (matchRepositories m gi.repositories).isEmpty)
    (fun gi : Installation =>
      ({ id := gi.id, token := gi.token,
         repositories := matchRepositories m gi.repositories } : InstallationStruct))
    insts
  have hpred : (fun gi : Installation => !(matchRepositories m gi.repositories).isEmpty) =
      (fun gi : Installation => gi.repositories.any fun r => (m r.htmlURL).isSome) := by
    funext gi
    rw [matchRepositories_isEmpty, Bool.not_not]
  rw [hpred] at h
  exact h

/-- Claim C1: the matcher's output contains only installations that have at
least one repository whose HTML URL is a key of the tracked map (an
installation with no tracked repository is dropped entirely, in a
filter-then-map characterization that also preserves installation order),
every kept installation has a non-empty matched repository list, and the
matched repositories of each installation preserve the directory-provided
order (a sublist of the original full-name sequence). -/
theorem matcher_drops_untracked_installations (m : String → Option String)
    (insts : List Installation) :
    matchInstallations m insts =
      (insts.filter fun gi => gi.repositories.any fun r => (m r.htmlURL).isSome).map
        (fun gi => { id := gi.id, token := gi.token,
                     repositories := matchRepositories m gi.repositories })
    ∧ (matchInstallations m insts).all (fun s => !s.repositories.isEmpty) = true
    ∧ ∀ gi : Installation,
        ((matchRepositories m gi.repositories).map fun r => r.repository).Sublist
          (gi.repositories.map fun r => r.fullName) := by
  refine ⟨matchInstallations_eq_filter_map m insts, ?_, fun gi => matchRepositories_names_sublist m gi.repositories⟩
  rw [List.all_eq_true]
  intro s hs
  rw [matchInstallations_eq_filter_map m insts] at hs
  obtain ⟨gi, hgi, rfl⟩ := List.mem_map.mp hs
  obtain ⟨-, hp⟩ := List.mem_filter.mp hgi
  have hiso := matchRepositories_isEmpty m gi.repositories
  rw [hp] at hiso
  simp only [Bool.not_true] at hiso
  simp [hiso]

lemma buildUrlMap_foldl_some (m0 : String → Option String) :
    ∀ (comps : List Component) (url b : String),
      (comps.foldl
        (fun m c =>
          match c.gitSource with
          | none => m
          | some gs => goMapSet m (normalizeRepoUrl gs.url) gs.revision) m0) url = some b →
      (∃ c2 ∈ comps, ∃ gs2, c2.gitSource = some gs2
          ∧ normalizeRepoUrl gs2.url = url ∧ gs2.revision = b)
      ∨ m0 url = some b := by
  intro comps
  induction comps generalizing m0 with
  | nil => intro url b h; exact Or.inr h
  | cons c comps ih =>
    intro url b h
    rw [List.foldl_cons] at h
    rcases ih _ url b h with ⟨c2, hc2, gs2, hsrc, hkey, hrev⟩ | hbase
    · exact Or.inl ⟨c2, List.mem_cons_of_mem c hc2, gs2, hsrc, hkey, hrev⟩
    · cases hsrc : c.gitSource with
      | none =>
        simp only [hsrc] at hbase
        exact Or.inr hbase
      | some gs =>
        simp only [hsrc, goMapSet] at hbase
        by_cases hk : url = normalizeRepoUrl gs.url
        · rw [if_pos hk] at hbase
          exact Or.inl ⟨c, List.mem_cons_self c comps, gs, hsrc, hk.symm,
            Option.some.inj hbase⟩
        · rw [if_neg hk] at hbase
          exact Or.inr hbase

/-- Claim C3 counterexample: the stored key is not always free of a `.git`
suffix. For the component URL `"https://github.com/org/repo.git/"` the code
first trims `".git"` (absent at the end), then the trailing slash, storing
the key `"https://github.com/org/repo.git"`, which still ends in `".git"`. -/
theorem component_url_key_keeps_git_suffix :
    normalizeRepoUrl "https://github.com/org/repo.git/" = "https://github.com/org/repo.git"
    ∧ (".git".data.isSuffixOf "https://github.com/org/repo.git".data) = true
    ∧ buildUrlMap [{ gitSource := some { url := "https://github.com/org/repo.git/",
                                         revision := "main" } }]
        "https://github.com/org/repo.git" = some "main" := by
  refine ⟨by decide, by decide, by decide⟩

/-- Claim C3 as amended: the key stored in the tracked-repository map is the
component URL with one `".git"` suffix trimmed and then one trailing `"/"`
trimmed (in that order; the result can still carry a `".git"` suffix when
the URL ended in `".git/"`); matching is by exact string equality of that
key, i.e. a lookup succeeds only for the exact normalized URL of some
component; and when two components share a normalized URL the
last one written wins. -/
theorem component_url_map_amended (cs : List Component) (c : Component) (gs : GitSource)
    (h : c.gitSource = some gs) :
    buildUrlMap (cs ++ [c]) (normalizeRepoUrl gs.url) = some gs.revision
    ∧ normalizeRepoUrl gs.url = trimSuffix (trimSuffix gs.url ".git") "/"
    ∧ ∀ (comps : List Component) (url b : String), buildUrlMap comps url = some b →
        ∃ c2 ∈ comps, ∃ gs2, c2.gitSource = some gs2
          ∧ normalizeRepoUrl gs2.url = url ∧ gs2.revision = b := by
  refine ⟨?_, rfl, ?_⟩
  · unfold buildUrlMap
    rw [List.foldl_append, List.foldl_cons, List.foldl_nil]
    simp only [h, goMapSet, if_pos]
  · intro comps url b hc
    unfold buildUrlMap at hc
    rcases buildUrlMap_foldl_some _ comps url b hc with hfound | hbase
    · exact hfound
    · exact absurd hbase (by simp)

/-- Witness for C3's amended claim: two components sharing the normalized
URL `"https://github.com/org/repo"`; the later one (revision `"v2"`) wins. -/
theorem component_url_map_amended_witness :
    ({ gitSource := some { url := "https://github.com/org/repo.git",
                           revision := "v2" } } : Component).gitSource =
      some { url := "https://github.com/org/repo.git", revision := "v2" }
    ∧ buildUrlMap
        ([{ gitSource := some { url := "https://github.com/org/repo/", revision := "v1" } }] ++
          [{ gitSource := some { url := "https://github.com/org/repo.git", revision := "v2" } }])
        (normalizeRepoUrl "https://github.com/org/repo.git") = some "v2" :=
  ⟨rfl,
   (component_url_map_amended
      [{ gitSource := some { url := "https://github.com/org/repo/", revision := "v1" } }]
      { gitSource := some { url := "https://github.com/org/repo.git", revision := "v2" } }
      { url := "https://github.com/org/repo.git", revision := "v2" } rfl).1⟩

/- ### Concrete fixtures for the orchestrator claims -/

/-- A sample installation repository. -/
def repo1 : Repository := { fullName := "org/app1", htmlURL := "https://github.com/org/app1" }

/-- A second sample installation repository. -/
def repo2 : Repository := { fullName := "org/app2", htmlURL := "https://github.com/org/app2" }

/-- A sample installation covering `repo1`. -/
def inst1 : Installation := { id := 101, token := "tokA", repositories := [repo1] }

/-- A sample installation covering `repo2`. -/
def inst2 : Installation := { id := 102, token := "tokB", repositories := [repo2] }

/-- A component tracking `repo1` pinned to branch `main`. -/
def comp1 : Component :=
  { gitSource := some { url := "https://github.com/org/app1.git", revision := "main" } }

/-- A component tracking `repo2` with no pinned revision. -/
def comp2 : Component :=
  { gitSource := some { url := "https://github.com/org/app2/", revision := "" } }

/-- An environment whose component listing fails while everything before it
succeeds. -/
def envListFail : ReconcileEnv :=
  { secretGet := .found [("github-application-id", "42")]
    isAppConfigured := fun _ => true
    parseAppId := fun _ => .ok 42
    getInstallations := .ok ([], "slug")
    listComponents := .error "boom"
    perJobEnv := ""
    imageEnv := ""
    patternEnv := ""
    jobName := fun _ => "renovate-job-1-abcde"
    createResult := fun _ => none }

/-- An environment with two matched installations, batch limit 1, and a
cluster that fails every artifact creation. -/
def envTwoBatches : ReconcileEnv :=
  { secretGet := .found [("github-application-id", "42")]
    isAppConfigured := fun _ => true
    parseAppId := fun _ => .ok 42
    getInstallations := .ok ([inst1, inst2], "slug")
    listComponents := .ok [comp1, comp2]
    perJobEnv := "1"
    imageEnv := ""
    patternEnv := ""
    jobName := fun _ => "renovate-job-1-abcde"
    createResult := fun _ => some "create failed" }

/-- An environment whose credential-presence check reports the GitHub App as
not configured. -/
def envNotConfigured : ReconcileEnv :=
  { secretGet := .notFound
    isAppConfigured := fun _ => false
    parseAppId := fun _ => .error "no app id"
    getInstallations := .error "unused"
    listComponents := .error "unused"
    perJobEnv := ""
    imageEnv := ""
    patternEnv := ""
    jobName := fun _ => "renovate-job-1-abcde"
    createResult := fun _ => none }

/-- Claim C4 counterexample: a component-list failure IS surfaced as a hard
error to the calling framework (`return ctrl.Result{}, err` at the end of
the Components listing block), contrary to the claim that only the
directory call surfaces one. -/
theorem component_list_failure_surfaces_error :
    (reconcile envListFail).error = some "boom"
    ∧ (reconcile envListFail).error ≠ none
    ∧ (reconcile envListFail).logs = [LogEntry.errorLog "failed to list Components"] :=
  ⟨rfl, by decide, rfl⟩

/-- Claim C4 as amended: a component-list failure is logged and aborts the
reconciliation AND is surfaced as a hard error to the calling framework,
exactly like a directory-call (`GetInstallations`) failure (which is
surfaced without a log line). -/
theorem read_failure_error_surfacing (env : ReconcileEnv)
    (d : List (String × String)) (appId : Int)
    (h1 : env.secretGet = SecretGetResult.found d)
    (h2 : env.isAppConfigured d = true)
    (h3 : env.parseAppId d = Except.ok appId) :
    (∀ e, env.getInstallations = Except.error e →
        (reconcile env).error = some e ∧ (reconcile env).logs = [])
    ∧ (∀ insts slug e, env.getInstallations = Except.ok (insts, slug) →
        env.listComponents = Except.error e →
        (reconcile env).error = some e
        ∧ (reconcile env).logs = [LogEntry.errorLog "failed to list Components"]
        ∧ (reconcile env).batchesAttempted = []
        ∧ (reconcile env).requeueAfterSeconds = none) := by
  constructor
  · intro e he
    constructor <;>
      simp [reconcile, h1, reconcileWithData, secretDataOf, h2, h3, he]
  · intro insts slug e hok he
    refine ⟨?_, ?_, ?_, ?_⟩ <;>
      simp [reconcile, h1, reconcileWithData, secretDataOf, h2, h3, hok, he]

/-- Witness for C4's amended claim on `envListFail`. -/
theorem read_failure_error_surfacing_witness :
    (reconcile envListFail).error = some "boom"
    ∧ (reconcile envListFail).logs = [LogEntry.errorLog "failed to list Components"]
    ∧ (reconcile envListFail).batchesAttempted = []
    ∧ (reconcile envListFail).requeueAfterSeconds = none :=
  (read_failure_error_surfacing envListFail [("github-application-id", "42")] 42
    rfl rfl rfl).2 [] "slug" "boom" rfl rfl

/-- Claim C7: once the batch phase is reached, every batch of the partition
is passed to job creation regardless of the per-batch creation results
(`createResult` is arbitrary), each failed creation contributes exactly one
error log line and nothing else, and the reconciliation unconditionally
requests a requeue after `NextReconcile` = 10 hours with no framework
error. -/
theorem batch_loop_independence_and_requeue (env : ReconcileEnv)
    (d : List (String × String)) (appId : Int) (insts : List Installation)
    (slug : String) (comps : List Component)
    (h1 : env.secretGet = SecretGetResult.found d)
    (h2 : env.isAppConfigured d = true)
    (h3 : env.parseAppId d = Except.ok appId)
    (h4 : env.getInstallations = Except.ok (insts, slug))
    (h5 : env.listComponents = Except.ok comps) :
    (reconcile env).batchesAttempted =
      batchInstallations (parsePerJobLimit env.perJobEnv)
        (matchInstallations (buildUrlMap comps) insts)
    ∧ (reconcile env).logs =
        (reconcile env).batchesAttempted.filterMap
          (fun b => (env.createResult b).map fun _ =>
            LogEntry.errorLog "failed to create a job")
    ∧ (reconcile env).requeueAfterSeconds = some NextReconcileSeconds
    ∧ NextReconcileSeconds = 10 * 60 * 60
    ∧ (reconcile env).error = none := by
  refine ⟨?_, ?_, ?_, rfl, ?_⟩ <;>
    simp [reconcile, h1, reconcileWithData, secretDataOf, h2, h3, h4, h5]

/-- Witness for C7 on `envTwoBatches`: both batches are attempted and both
failures are logged, none aborts the other. -/
theorem batch_loop_independence_and_requeue_witness :
    ((reconcile envTwoBatches).batchesAttempted =
        batchInstallations (parsePerJobLimit envTwoBatches.perJobEnv)
          (matchInstallations (buildUrlMap [comp1, comp2]) [inst1, inst2])
      ∧ (reconcile envTwoBatches).logs =
          (reconcile envTwoBatches).batchesAttempted.filterMap
            (fun b => (envTwoBatches.createResult b).map fun _ =>
              LogEntry.errorLog "failed to create a job")
      ∧ (reconcile envTwoBatches).requeueAfterSeconds = some NextReconcileSeconds
      ∧ NextReconcileSeconds = 10 * 60 * 60
      ∧ (reconcile envTwoBatches).error = none)
    ∧ (reconcile envTwoBatches).batchesAttempted.length = 2
    ∧ (reconcile envTwoBatches).logs.length = 2 :=
  ⟨batch_loop_independence_and_requeue envTwoBatches [("github-application-id", "42")] 42
      [inst1, inst2] "slug" [comp1, comp2] rfl rfl rfl rfl rfl,
   by decide, by decide⟩

/-- Claim C8: when the credential-presence check reports the GitHub App as
not configured (on the fetched secret data, or the zero-value data of an
absent secret), the reconciliation returns without error, never reaches the
installation directory, creates no batches or artifacts, and only logs an
informational line. -/
theorem app_not_configured_noop (env : ReconcileEnv)
    (h1 : ∀ msg, env.secretGet ≠ SecretGetResult.errOther msg)
    (h2 : env.isAppConfigured (secretDataOf env.secretGet) = false) :
    reconcile env =
      { requeueAfterSeconds := none, error := none, directoryCalled := false,
        batchesAttempted := [], artifacts := [],
        logs := [.infoLog "GitHub App is not set"] } := by
  cases hs : env.secretGet with
  | errOther msg => exact absurd hs (h1 msg)
  | notFound =>
    simp only [hs, secretDataOf] at h2
    simp [reconcile, hs, reconcileWithData, secretDataOf, h2]
  | found d =>
    simp only [hs, secretDataOf] at h2
    simp [reconcile, hs, reconcileWithData, secretDataOf, h2]

/-- Witness for C8 on `envNotConfigured`. -/
theorem app_not_configured_noop_witness :
    reconcile envNotConfigured =
      { requeueAfterSeconds := none, error := none, directoryCalled := false,
        batchesAttempted := [], artifacts := [],
        logs := [.infoLog "GitHub App is not set"] } :=
  app_not_configured_noop envNotConfigured
    (fun _ h => SecretGetResult.noConfusion h) rfl

lemma foldl_goMapSet_eq_of_notmem {α : Type} (key val : α → String) :
    ∀ (l : List α) (m0 : String → Option String) (k : String),
      k ∉ l.map key →
      (l.foldl (fun m x => goMapSet m (key x) (val x)) m0) k = m0 k := by
  intro l
  induction l with
  | nil => intro m0 k _; rfl
  | cons a l ih =>
    intro m0 k hk
    rw [List.map_cons, List.mem_cons] at hk
    push_neg at hk
    rw [List.foldl_cons, ih _ k hk.2]
    unfold goMapSet
    rw [if_neg hk.1]

lemma foldl_goMapSet_lookup {α : Type} (key val : α → String) :
    ∀ (l : List α) (m0 : String → Option String),
      (l.map key).Nodup → ∀ a ∈ l,
        (l.foldl (fun m x => goMapSet m (key x) (val x)) m0) (key a) = some (val a) := by
  intro l
  induction l with
  | nil => intro m0 _ a ha; exact absurd ha (List.not_mem_nil a)
  | cons x l ih =>
    intro m0 hnd a ha
    rw [List.map_cons, List.nodup_cons] at hnd
    obtain ⟨hx, hnd2⟩ := hnd
    rw [List.foldl_cons]
    rcases List.mem_cons.mp ha with rfl | ha2
    · rw [foldl_goMapSet_eq_of_notmem key val l _ (key a) hx]
      unfold goMapSet
      rw [if_pos rfl]
    · exact ih _ hnd2 a ha2

/-- A concrete one-installation batch used by the job-builder claims. -/
def sampleBatch : List InstallationStruct :=
  [{ id := 1, token := "token-1",
     repositories := [{ repository := "org/repo", baseBranches := ["main"] }] }]

/-- Claim C5 counterexample: the volume mount of the generated job spec does
NOT set the read-only flag — `VolumeMount{Name: name, MountPath: "/configs"}`
leaves `ReadOnly` at its zero value `false` — so the claim's "mounts the
generated configs as a read-only volume" does not hold of the job
specification the code builds. -/
theorem renovater_job_mount_readonly_flag_false :
    (createRenovaterJob "renovate-job-1-abcde" sampleBatch "slug" "" "").map
        (fun art => art.job.containers.map fun c =>
          c.volumeMounts.map fun vm => (vm.mountPath, vm.readOnly))
      = some [[("/configs", false)]] := rfl

/-- Claim C5 as amended: for every non-empty batch the created job spec
limits execution to 1 retry, expires 24 hours after completion, mounts the
generated configs as a configMap-backed volume at `/configs` WITHOUT setting
the mount's read-only flag, exposes each installation's token as
`TOKEN_{id}` via the `TOKEN_` prefixed secret reference (the secret maps
`{id}` to the token), joins the per-installation commands with semicolons
into one `bash -c` command each referencing only its own token and config
file, and runs as non-root with all capabilities dropped, privilege
escalation disallowed, and the RuntimeDefault seccomp profile. -/
theorem renovater_job_spec (name slug imageEnv patternEnv : String)
    (installations : List InstallationStruct)
    (hne : installations ≠ [])
    (hkeys : (installations.map fun i => toString i.id).Nodup) :
    ∃ art, createRenovaterJob name installations slug imageEnv patternEnv = some art
      ∧ art.job.backoffLimit = 1
      ∧ art.job.ttlSecondsAfterFinished = 24 * 60 * 60
      ∧ art.job.volumes = [{ name := name, configMapName := name }]
      ∧ art.job.restartPolicy = "Never"
      ∧ art.job.containers.length = 1
      ∧ (∀ c ∈ art.job.containers,
          c.volumeMounts = [{ name := name, mountPath := "/configs", readOnly := false }]
          ∧ c.envFrom = [{ pre := "TOKEN_", secretName := name }]
          ∧ c.command = ["bash", "-c", String.intercalate "; "
              (installations.map fun i => renovateCmdFor i.id)]
          ∧ c.securityContext =
              { capabilitiesDrop := ["ALL"], runAsNonRoot := true,
                allowPrivilegeEscalation := false, seccompProfileType := "RuntimeDefault" })
      ∧ (∀ i ∈ installations, art.secretData (toString i.id) = some i.token) := by
  have hisEmpty : installations.isEmpty = false := by
    cases installations with
    | nil => exact absurd rfl hne
    | cons a l => rfl
  have hcmds : (installations.map fun i => renovateCmdFor i.id).isEmpty = false := by
    cases installations with
    | nil => exact absurd rfl hne
    | cons a l => rfl
  unfold createRenovaterJob
  rw [hisEmpty]
  simp only [Bool.false_eq_true, if_false]
  rw [hcmds]
  simp only [Bool.false_eq_true, if_false]
  refine ⟨_, rfl, rfl, by norm_num [TimeToLiveOfJobSeconds], rfl, rfl, rfl, ?_, ?_⟩
  · intro c hc
    rw [List.mem_singleton] at hc
    subst hc
    exact ⟨rfl, rfl, rfl, rfl⟩
  · intro i hi
    exact foldl_goMapSet_lookup (fun i => toString i.id) (fun i => i.token)
      installations _ hkeys i hi

/-- Witness for C5's amended claim on `sampleBatch`. -/
theorem renovater_job_spec_witness :
    sampleBatch ≠ []
    ∧ (sampleBatch.map fun i => toString i.id).Nodup
    ∧ (∃ art, createRenovaterJob "renovate-job-1-abcde" sampleBatch "slug" "" "" = some art
        ∧ art.job.backoffLimit = 1
        ∧ art.job.ttlSecondsAfterFinished = 24 * 60 * 60
        ∧ art.job.volumes = [{ name := "renovate-job-1-abcde",
                               configMapName := "renovate-job-1-abcde" }]
        ∧ art.job.restartPolicy = "Never"
        ∧ art.job.containers.length = 1
        ∧ (∀ c ∈ art.job.containers,
            c.volumeMounts = [{ name := "renovate-job-1-abcde", mountPath := "/configs",
                                readOnly := false }]
            ∧ c.envFrom = [{ pre := "TOKEN_", secretName := "renovate-job-1-abcde" }]
            ∧ c.command = ["bash", "-c", String.intercalate "; "
                (sampleBatch.map fun i => renovateCmdFor i.id)]
            ∧ c.securityContext =
                { capabilitiesDrop := ["ALL"], runAsNonRoot := true,
                  allowPrivilegeEscalation := false, seccompProfileType := "RuntimeDefault" })
        ∧ (∀ i ∈ sampleBatch, art.secretData (toString i.id) = some i.token)) :=
  ⟨by decide, by decide,
   renovater_job_spec "renovate-job-1-abcde" "slug" "" "" sampleBatch
     (by decide) (by decide)⟩

/-- Claim C6: the repositories array serialized into the generated
configuration document is exactly the installation's matched repository
list, order-preserving (one JSON entry per tracked repository of the
installation, in directory order), and an entry carries
`"baseBranches":["branch"]` exactly when the tracked revision is non-empty,
while an empty revision yields an entry with the field omitted. -/
theorem generate_config_repositories_serialization (m : String → Option String)
    (slug patternEnv : String) (repos : List Repository) :
    generateConfigJS slug (matchRepositories m repos) patternEnv =
      configPart0 ++ slug ++ configPart1 ++ slug ++ configPart2 ++ slug ++ configPart3 ++
        ("[" ++ String.intercalate ","
            ((matchRepositories m repos).map renovateRepositoryJson) ++ "]") ++
        configPart4 ++ effectivePattern patternEnv ++ configPart5 ++
        effectivePattern patternEnv ++ configPart6
    ∧ (matchRepositories m repos).map renovateRepositoryJson =
        repos.filterMap (fun r => (m r.htmlURL).map fun branch =>
          renovateRepositoryJson
            { repository := r.fullName
              baseBranches := if branch = "" then [] else [branch] })
    ∧ (∀ nm b : String,
        renovateRepositoryJson { repository := nm, baseBranches := [b] } =
          "\x7b\"repository\":" ++ jsonQuote nm ++
            (",\"baseBranches\":[" ++ jsonQuote b ++ "]") ++ "\x7d")
    ∧ (∀ nm : String,
        renovateRepositoryJson { repository := nm, baseBranches := [] } =
          "\x7b\"repository\":" ++ jsonQuote nm ++ "\x7d") := by
  refine ⟨rfl, ?_, fun nm b => rfl, ?_⟩
  · rw [matchRepositories, List.map_filterMap]
    congr 1
    funext r
    cases m r.htmlURL <;> rfl
  · intro nm
    show "\x7b\"repository\":" ++ jsonQuote nm ++ "" ++ "\x7d" = _
    rw [String.append_empty]

/-- The projection of an `installationStruct` that omits the token. -/
def stripToken (i : InstallationStruct) : Int × List RenovateRepository :=
  (i.id, i.repositories)

lemma foldl_proj_congr {α β γ : Type} (p : α → β) (g : γ → β → γ) :
    ∀ (l1 l2 : List α), l1.map p = l2.map p →
      ∀ m0 : γ, l1.foldl (fun m x => g m (p x)) m0 = l2.foldl (fun m x => g m (p x)) m0 := by
  intro l1
  induction l1 with
  | nil =>
    intro l2 h m0
    cases l2 with
    | nil => rfl
    | cons b l2 => simp at h
  | cons a l1 ih =>
    intro l2 h m0
    cases l2 with
    | nil => simp at h
    | cons b l2 =>
      simp only [List.map_cons, List.cons.injEq] at h
      rw [List.foldl_cons, List.foldl_cons, h.1]
      exact ih l2 h.2 _

/-- Claim C10: the generated config-map data and the job spec never depend
on installation access tokens — for any two batches that agree after
erasing the tokens (same ids and repositories), the built config-map data
and job object are identical; tokens flow only into the secret object. -/
theorem config_and_job_token_independence (name slug imageEnv patternEnv : String)
    (l1 l2 : List InstallationStruct)
    (h : l1.map stripToken = l2.map stripToken) :
    ((createRenovaterJob name l1 slug imageEnv patternEnv).map fun a => a.configMapData) =
      ((createRenovaterJob name l2 slug imageEnv patternEnv).map fun a => a.configMapData)
    ∧ ((createRenovaterJob name l1 slug imageEnv patternEnv).map fun a => a.job) =
      ((createRenovaterJob name l2 slug imageEnv patternEnv).map fun a => a.job) := by
  have hcm : l1.foldl
        (fun m i => goMapSet m (toString i.id ++ ".js")
          (generateConfigJS slug i.repositories patternEnv)) (fun _ => none)
      = l2.foldl
        (fun m i => goMapSet m (toString i.id ++ ".js")
          (generateConfigJS slug i.repositories patternEnv)) (fun _ => none) :=
    foldl_proj_congr stripToken
      (fun m pr => goMapSet m (toString pr.1 ++ ".js")
        (generateConfigJS slug pr.2 patternEnv)) l1 l2 h (fun _ => none)
  have hcmds : l1.map (fun i => renovateCmdFor i.id) =
      l2.map (fun i => renovateCmdFor i.id) := by
    have h1 : l1.map (fun i => renovateCmdFor i.id) =
        (l1.map stripToken).map (fun pr => renovateCmdFor pr.1) := by
      rw [List.map_map]
      rfl
    have h2 : l2.map (fun i => renovateCmdFor i.id) =
        (l2.map stripToken).map (fun pr => renovateCmdFor pr.1) := by
      rw [List.map_map]
      rfl
    rw [h1, h2, h]
  cases l1 with
  | nil =>
    cases l2 with
    | nil => exact ⟨rfl, rfl⟩
    | cons b t2 => simp [stripToken] at h
  | cons a t1 =>
    cases l2 with
    | nil => simp [stripToken] at h
    | cons b t2 =>
      constructor
      · exact congrArg some hcm
      · refine congrArg some ?_
        rw [hcmds]

/-- A one-installation batch with token `"token-A"`. -/
def tokenBatchA : List InstallationStruct :=
  [{ id := 7, token := "token-A",
     repositories := [{ repository := "org/repo", baseBranches := ["main"] }] }]

/-- The same batch as `tokenBatchA` except for the token. -/
def tokenBatchB : List InstallationStruct :=
  [{ id := 7, token := "token-B",
     repositories := [{ repository := "org/repo", baseBranches := ["main"] }] }]

/-- Witness for C10 on two batches that differ only in their tokens. -/
theorem config_and_job_token_independence_witness :
    tokenBatchA.map stripToken = tokenBatchB.map stripToken
    ∧ (((createRenovaterJob "renovate-job-1-abcde" tokenBatchA "slug" "" "").map
          fun a => a.configMapData) =
        ((createRenovaterJob "renovate-job-1-abcde" tokenBatchB "slug" "" "").map
          fun a => a.configMapData)
      ∧ ((createRenovaterJob "renovate-job-1-abcde" tokenBatchA "slug" "" "").map
          fun a => a.job) =
        ((createRenovaterJob "renovate-job-1-abcde" tokenBatchB "slug" "" "").map
          fun a => a.job)) :=
  ⟨by decide,
   config_and_job_token_independence "renovate-job-1-abcde" "slug" "" ""
     tokenBatchA tokenBatchB (by decide)⟩
